import Mathlib

/-
Verification of the image-wrench colour-analysis core (src/color/processing.ts,
src/color/sorting.ts) against its specification.

Shallow embedding conventions:
  * every JavaScript `number` taking part in exact arithmetic and comparisons is
    modelled as a rational (ℚ); pixel channel values read from the RGBA buffer
    are naturals (0..255);
  * `Math.round` is modelled as `jsRound` (round half towards +infinity, the
    JavaScript behaviour);
  * `Math.sqrt` appears in the source only inside `colorDistance`, whose value
    is used exclusively in order comparisons; since the square root is strictly
    monotone on nonnegative arguments, we embed the squared distance
    (`colorDistanceSq`) — every comparison made by the algorithms is unchanged;
  * `Math.pow(x, 2.4)` (a transcendental) is abstracted as an explicit function
    parameter `pow : ℚ → ℚ` of the brightness computation; no claim depends on
    its value;
  * `Math.random()` draws are supplied by an explicit `Oracle`, so theorems
    quantify over every possible outcome of the random choices;
  * JavaScript `Array.prototype.sort` with a consistent comparator is a stable
    sort; it is embedded as `List.mergeSort` with the ordering induced by the
    comparator.
-/

set_option linter.unusedVariables false

namespace ImageWrench

/-- A colour; the TypeScript `Color` interface `{r, g, b}`.  Channel values are
JavaScript numbers, embedded as rationals (final palette colours are integral,
intermediate centroids are not). -/
structure Color where
  r : ℚ
  g : ℚ
  b : ℚ
deriving DecidableEq, Repr

/-- A weighted colour point; the TypeScript `DataPoint` interface
`{r, g, b, count}`. -/
structure DataPoint where
  r : ℚ
  g : ℚ
  b : ℚ
  count : ℚ
deriving DecidableEq, Repr

/-- JavaScript `Math.round`: round half away from zero towards +infinity,
i.e. `⌊x + 1/2⌋`. -/
def jsRound (q : ℚ) : ℤ := ⌊q + 1 / 2⌋

/-- The clamping `Math.min(255, Math.max(0, ·))` from `extractDominantColors`. -/
def clamp255 (z : ℤ) : ℤ := min 255 (max 0 z)

/-- `Math.min` over a list; the source only applies it to nonempty lists (the
`Infinity` neutral element of the empty case never arises there). -/
def minQ : List ℚ → ℚ
  | [] => 0
  | x :: xs => xs.foldl min x

/-- `Math.max` over a list; the source only applies it to nonempty lists. -/
def maxQ : List ℚ → ℚ
  | [] => 0
  | x :: xs => xs.foldl max x

/-- Loop body shared by the source's three first-strict-maximum scans
(`boxToSplitIndex` in `medianCutQuantize`, `candidateIndex` in
`extractDistinctColorPalette`): walk the list keeping the first index whose
score strictly exceeds the best seen so far. -/
def firstMaxAux (f : α → ℚ) : List α → Nat → Nat → ℚ → Nat
  | [], _, best, _ => best
  | x :: xs, i, best, bestV =>
    if bestV < f x then firstMaxAux f xs (i + 1) i (f x)
    else firstMaxAux f xs (i + 1) best bestV

/-- First index attaining the strict maximum of `f`.  The source initialises the
scan at `-Infinity`, so the head element is always adopted first; this is the
head-seeded equivalent. -/
def firstMaxIdx (f : α → ℚ) : List α → Option Nat
  | [] => none
  | x :: xs => some (firstMaxAux f xs 1 0 (f x))

/-- Loop body of the source's first-strict-minimum scan (`bestIndex` in
`kMeansClustering`). -/
def firstMinAux (f : α → ℚ) : List α → Nat → Nat → ℚ → Nat
  | [], _, best, _ => best
  | x :: xs, i, best, bestV =>
    if f x < bestV then firstMinAux f xs (i + 1) i (f x)
    else firstMinAux f xs (i + 1) best bestV

/-- First index attaining the strict minimum of `f`; the source initialises at
`Infinity`, so the head element is always adopted first. -/
def firstMinIdx (f : α → ℚ) : List α → Option Nat
  | [] => none
  | x :: xs => some (firstMinAux f xs 1 0 (f x))

/-- `Array.prototype.splice(i, 1)`: remove the element at index `i`. -/
def removeAt (l : List α) (i : Nat) : List α := l.take i ++ l.drop (i + 1)

/-- In-place update of the element at index `i` (JavaScript `a[i] = f a[i]`). -/
def updAt (f : α → α) : List α → Nat → List α
  | [], _ => []
  | x :: xs, 0 => f x :: xs
  | x :: xs, i + 1 => x :: updAt f xs i

theorem length_updAt (f : α → α) : ∀ (l : List α) (i : Nat), (updAt f l i).length = l.length
  | [], _ => rfl
  | _ :: _, 0 => rfl
  | _ :: xs, i + 1 => congrArg Nat.succ (length_updAt f xs i)

/- ## Histogram (src/color/processing.ts lines 7, 116-145) -/

/-- One histogram bin; the TypeScript `HistogramBin` interface. -/
structure HistogramBin where
  value : Nat
  count : Nat
deriving DecidableEq, Repr

/-- The per-channel histogram; the TypeScript `Histogram` interface. -/
structure Histogram where
  r : List HistogramBin
  g : List HistogramBin
  b : List HistogramBin
  totalPixels : Nat
deriving DecidableEq, Repr

/-- `const HISTOGRAM_BINS = 32` (line 7). -/
def HISTOGRAM_BINS : Nat := 32

/-- `initializeHistogram` (lines 116-129): 32 zero bins per channel, bin `i`
labelled `Math.floor(i * 256 / HISTOGRAM_BINS)`. -/
def initializeHistogram : Histogram :=
  let createBins : List HistogramBin :=
    (List.range HISTOGRAM_BINS).map fun i => ⟨i * 256 / HISTOGRAM_BINS, 0⟩
  ⟨createBins, createBins, createBins, 0⟩

/-- `getBinIndex` (line 132): `Math.floor(value * HISTOGRAM_BINS / 256)`. -/
def getBinIndex (value : Nat) : Nat := value * HISTOGRAM_BINS / 256

/-- Increment the count of bin `i`. -/
def incBin (bins : List HistogramBin) (i : Nat) : List HistogramBin :=
  updAt (fun bn => ⟨bn.value, bn.count + 1⟩) bins i

/-- `updateHistogram` (lines 131-145): look up the bin of each channel; if all
three lookups are defined, increment all three, otherwise change nothing (the
source logs a warning). -/
def updateHistogram (h : Histogram) (r g b : Nat) : Histogram :=
  if getBinIndex r < h.r.length ∧ getBinIndex g < h.g.length ∧ getBinIndex b < h.b.length then
    ⟨incBin h.r (getBinIndex r), incBin h.g (getBinIndex g),
     incBin h.b (getBinIndex b), h.totalPixels⟩
  else h

/-- The pixel loop of `analyzeImageColors` restricted to its histogram effect
(lines 34-62): step through the flat RGBA buffer four bytes at a time. -/
def processPixelsHist : List Nat → Histogram → Histogram
  | r :: g :: b :: _ :: rest, h => processPixelsHist rest (updateHistogram h r g b)
  | _, h => h

/-- The histogram produced by `analyzeImageColors` (lines 24, 46, 64-65):
one pass over the pixels, then `totalPixels = pixels.length / 4`. -/
def analyzeHistogram (pixels : List Nat) : Histogram :=
  let h := processPixelsHist pixels initializeHistogram
  ⟨h.r, h.g, h.b, pixels.length / 4⟩

/-- Sum of the bin counts of one channel. -/
def sumCounts (bins : List HistogramBin) : Nat := (bins.map (·.count)).sum

theorem sumCounts_incBin (bins : List HistogramBin) (i : Nat) (hi : i < bins.length) :
    sumCounts (incBin bins i) = sumCounts bins + 1 := by
  induction bins generalizing i with
  | nil => simp at hi
  | cons x xs ih =>
    cases i with
    | zero => simp [sumCounts, incBin, updAt]; ring
    | succ n =>
      have hn : n < xs.length := Nat.lt_of_succ_lt_succ hi
      simp [sumCounts, incBin, updAt] at ih ⊢
      rw [ih n hn]; ring

theorem length_incBin (bins : List HistogramBin) (i : Nat) :
    (incBin bins i).length = bins.length := length_updAt _ bins i

theorem getBinIndex_lt (v : Nat) (hv : v ≤ 255) : getBinIndex v < 32 := by
  have : v * HISTOGRAM_BINS ≤ 255 * 32 := by
    unfold HISTOGRAM_BINS; exact Nat.mul_le_mul_right 32 hv
  unfold getBinIndex
  omega

theorem updateHistogram_spec (h : Histogram) (r g b : Nat)
    (hr : h.r.length = 32) (hg : h.g.length = 32) (hb : h.b.length = 32)
    (hvr : r ≤ 255) (hvg : g ≤ 255) (hvb : b ≤ 255) :
    (updateHistogram h r g b).r.length = 32 ∧ (updateHistogram h r g b).g.length = 32 ∧
    (updateHistogram h r g b).b.length = 32 ∧
    sumCounts (updateHistogram h r g b).r = sumCounts h.r + 1 ∧
    sumCounts (updateHistogram h r g b).g = sumCounts h.g + 1 ∧
    sumCounts (updateHistogram h r g b).b = sumCounts h.b + 1 := by
  have ir : getBinIndex r < h.r.length := hr ▸ getBinIndex_lt r hvr
  have ig : getBinIndex g < h.g.length := hg ▸ getBinIndex_lt g hvg
  have ib : getBinIndex b < h.b.length := hb ▸ getBinIndex_lt b hvb
  unfold updateHistogram
  rw [if_pos ⟨ir, ig, ib⟩]
  refine ⟨?_, ?_, ?_, ?_, ?_, ?_⟩
  · simpa [length_incBin] using hr
  · simpa [length_incBin] using hg
  · simpa [length_incBin] using hb
  · exact sumCounts_incBin _ _ ir
  · exact sumCounts_incBin _ _ ig
  · exact sumCounts_incBin _ _ ib

theorem processPixelsHist_spec :
    ∀ (pixels : List Nat) (h : Histogram),
    pixels.length % 4 = 0 → (∀ v ∈ pixels, v ≤ 255) →
    h.r.length = 32 → h.g.length = 32 → h.b.length = 32 →
    (processPixelsHist pixels h).r.length = 32 ∧
    (processPixelsHist pixels h).g.length = 32 ∧
    (processPixelsHist pixels h).b.length = 32 ∧
    sumCounts (processPixelsHist pixels h).r = sumCounts h.r + pixels.length / 4 ∧
    sumCounts (processPixelsHist pixels h).g = sumCounts h.g + pixels.length / 4 ∧
    sumCounts (processPixelsHist pixels h).b = sumCounts h.b + pixels.length / 4 := by
  intro pixels H
  induction pixels, H using processPixelsHist.induct with
  | case1 r g b a rest H ih =>
    intro hlen hv h32r h32g h32b
    have hvr : r ≤ 255 := hv r (by simp)
    have hvg : g ≤ 255 := hv g (by simp)
    have hvb : b ≤ 255 := hv b (by simp)
    obtain ⟨u1, u2, u3, u4, u5, u6⟩ :=
      updateHistogram_spec H r g b h32r h32g h32b hvr hvg hvb
    have hlen' : rest.length % 4 = 0 := by
      simp [List.length_cons] at hlen; omega
    have hv' : ∀ v ∈ rest, v ≤ 255 := fun v hm => hv v (by simp [hm])
    obtain ⟨w1, w2, w3, w4, w5, w6⟩ := ih hlen' hv' u1 u2 u3
    refine ⟨by simpa [processPixelsHist] using w1, by simpa [processPixelsHist] using w2,
      by simpa [processPixelsHist] using w3, ?_, ?_, ?_⟩
    all_goals
      simp only [processPixelsHist, List.length_cons]
      first
      | (rw [w4, u4]; omega)
      | (rw [w5, u5]; omega)
      | (rw [w6, u6]; omega)
  | case2 t h ht =>
    intro hlen _ h32r h32g h32b
    match t, ht with
    | [], _ => simp [processPixelsHist, h32r, h32g, h32b]
    | [x], _ => simp [List.length_cons] at hlen
    | [x, y], _ => simp [List.length_cons] at hlen
    | [x, y, z], _ => simp [List.length_cons] at hlen
    | x :: y :: z :: w :: rest, ht => exact absurd rfl (ht x y z w rest)

/- ## Weighted k-means (src/color/processing.ts lines 161-294, 344-387) -/

/-- `euclideanDistanceSquared` (lines 175-180); centroids share the `Color`
shape `{r, g, b}`. -/
def euclideanDistanceSquared (c1 c2 : Color) : ℚ :=
  (c1.r - c2.r) * (c1.r - c2.r) + (c1.g - c2.g) * (c1.g - c2.g) +
  (c1.b - c2.b) * (c1.b - c2.b)

/-- Outcomes of the `Math.random()` draws made by seeding and reseeding.
`seed n` is the value of `Math.random() * total` at the n-th seeding draw
(every real outcome lies in `[0, total)`; theorems quantify over all of ℚ,
which covers them all).  `reseed iter i` determines the data index
`Math.floor(Math.random() * data.length)` chosen when cluster `i` is empty at
iteration `iter`; it is reduced modulo `data.length`, which ranges over exactly
the indices the source can draw. -/
structure Oracle where
  seed : Nat → ℚ
  reseed : Nat → Nat → Nat

/-- The weight-proportional selection walk of `initializeCentroidsKMeansPP`
(lines 188-196): subtract each count from the random weight and stop at the
first point driving it to zero or below. -/
def pickByWeight : ℚ → List DataPoint → Option DataPoint
  | _, [] => none
  | rw, d :: rest => if rw - d.count ≤ 0 then some d else pickByWeight (rw - d.count) rest

/-- The score-proportional selection walk for subsequent centroids
(lines 210-218), over points paired with their scores. -/
def pickByScore : ℚ → List (DataPoint × ℚ) → Option DataPoint
  | _, [] => none
  | rw, (d, s) :: rest => if rw - s ≤ 0 then some d else pickByScore (rw - s) rest

/-- `data[data.length - 1]`, the fallback pick; call sites have nonempty data. -/
def lastD (data : List DataPoint) : DataPoint := data.getLastD ⟨0, 0, 0, 0⟩

/-- Forget the weight of a data point (`{r: d.r, g: d.g, b: d.b}`). -/
def toCentroid (d : DataPoint) : Color := ⟨d.r, d.g, d.b⟩

/-- `Math.min(...centroids.map(c => euclideanDistanceSquared(d, c)))`
(line 206); centroids are nonempty at the call site. -/
def nearestDistSq (cs : List Color) (d : DataPoint) : ℚ :=
  minQ (cs.map (fun c => euclideanDistanceSquared (toCentroid d) c))

/-- The `while (centroids.length < k)` loop of `initializeCentroidsKMeansPP`
(lines 204-223); one centroid is added per iteration, so a fuel of `k`
suffices.  The n-th draw uses `seed n` (draw 0 chose the first centroid). -/
def kmppLoop (o : Oracle) (data : List DataPoint) (k : Nat) :
    Nat → List Color → List Color
  | 0, cs => cs
  | fuel + 1, cs =>
    if cs.length < k then
      let distances := data.map (fun d => nearestDistSq cs d * d.count)
      let sel := (pickByScore (o.seed cs.length) (data.zip distances)).getD (lastD data)
      kmppLoop o data k fuel (cs ++ [toCentroid sel])
    else cs

/-- `initializeCentroidsKMeansPP` (lines 183-226): the first centroid is chosen
by weight-proportional sampling (unconditionally, even when `k = 0`), the rest
by squared-distance-weighted sampling. -/
def initializeCentroidsKMeansPP (o : Oracle) (data : List DataPoint) (k : Nat) :
    List Color :=
  let firstCentroid := (pickByWeight (o.seed 0) data).getD (lastD data)
  kmppLoop o data k k [toCentroid firstCentroid]

/-- Per-cluster accumulator `{sumR, sumG, sumB, weight}` (lines 236-239). -/
structure SumAcc where
  sumR : ℚ
  sumG : ℚ
  sumB : ℚ
  weight : ℚ
deriving DecidableEq, Repr

/-- Index of the nearest centroid (lines 252-260): strict-minimum scan with the
first minimum winning; `bestIndex` starts at 0 (kept when the centroid list is
empty, which cannot happen at the call site). -/
def bestIndex (cs : List Color) (d : DataPoint) : Nat :=
  (firstMinIdx (fun c => euclideanDistanceSquared (toCentroid d) c) cs).getD 0

/-- Add the point `d` to the accumulator of its nearest centroid
(lines 261-264). -/
def addPoint (cs : List Color) (sums : List SumAcc) (d : DataPoint) : List SumAcc :=
  updAt (fun s => ⟨s.sumR + d.r * d.count, s.sumG + d.g * d.count,
                   s.sumB + d.b * d.count, s.weight + d.count⟩)
    sums (bestIndex cs d)

/-- The assignment pass of one Lloyd iteration (lines 245-265): reset the
accumulators, then add every point to its nearest centroid. -/
def assignSums (data : List DataPoint) (cs : List Color) : List SumAcc :=
  data.foldl (addPoint cs) (List.replicate cs.length ⟨0, 0, 0, 0⟩)

/-- The update pass of one Lloyd iteration (lines 267-288), walking the
centroids paired with their accumulators at cluster index `i`: a cluster with
positive weight moves to the weighted mean (not converged if it moved by
squared distance above 1), an empty cluster is reseeded to a random data point
and forces another pass.  Returns the new centroids, the new cluster weights
and the conjunction of the convergence flags. -/
def updateLoop (o : Oracle) (data : List DataPoint) (iter : Nat) :
    List (Color × SumAcc) → Nat → List Color × List ℚ × Bool
  | [], _ => ([], [], true)
  | (c, s) :: rest, i =>
    let res := updateLoop o data iter rest (i + 1)
    if 0 < s.weight then
      let nc : Color := ⟨s.sumR / s.weight, s.sumG / s.weight, s.sumB / s.weight⟩
      let moved : Bool := decide (1 < euclideanDistanceSquared c nc)
      (nc :: res.1, s.weight :: res.2.1, (!moved) && res.2.2)
    else
      let nd := data.getD (o.reseed iter i % data.length) ⟨0, 0, 0, 0⟩
      (toCentroid nd :: res.1, 0 :: res.2.1, false)

/-- The iteration loop of `kMeansClustering` (lines 244-291): run at most
`fuel` Lloyd iterations, stopping after an iteration in which every cluster
converged. -/
def kmLoop (o : Oracle) (data : List DataPoint) :
    Nat → Nat → List Color → List ℚ → List Color × List ℚ
  | 0, _, cs, ws => (cs, ws)
  | fuel + 1, iter, cs, _ws =>
    let sums := assignSums data cs
    let res := updateLoop o data iter (cs.zip sums) 0
    if res.2.2 then (res.1, res.2.1) else kmLoop o data fuel (iter + 1) res.1 res.2.1

/-- `kMeansClustering` (lines 229-294): cluster weights start at zero
(line 242) and the loop runs for at most `maxIterations` passes. -/
def kMeansClustering (o : Oracle) (data : List DataPoint) (centroids : List Color)
    (maxIterations : Nat) : List Color × List ℚ :=
  kmLoop o data maxIterations 0 centroids (List.replicate centroids.length 0)

/-- `Math.min(255, Math.max(0, Math.round(x)))` applied per channel
(lines 380-384). -/
def clampRoundColor (c : Color) : Color :=
  ⟨(clamp255 (jsRound c.r) : ℤ), (clamp255 (jsRound c.g) : ℤ), (clamp255 (jsRound c.b) : ℤ)⟩

/-- The centroid/weight pairing of lines 366-374: seed with k-means++, run the
clustering, then pair each final centroid with its cluster weight (the lists
have equal length, so the index pairing is a zip). -/
def dominantClusters (o : Oracle) (data : List DataPoint) (k : Nat) :
    List (Color × ℚ) :=
  let centroids := initializeCentroidsKMeansPP o data k
  let res := kMeansClustering o data centroids 10
  res.1.zip res.2

/-- The comparator `(a, b) => (b.weight ?? 0) - (a.weight ?? 0)` (line 377):
a stable sort by descending weight. -/
def sortClustersByWeight (clusters : List (Color × ℚ)) : List (Color × ℚ) :=
  clusters.mergeSort (fun a b => decide (b.2 ≤ a.2))

/-- `extractDominantColors` (lines 345-387), taking the parsed weighted point
list (the source builds it from the `Map<string, number>` of `"r,g,b"` keys;
keys produced by `analyzeImageColors` always parse, so no point is dropped). -/
def extractDominantColors (o : Oracle) (data : List DataPoint) (k : Nat) :
    List Color :=
  if data.length = 0 then []
  else if data.length ≤ k then data.map toCentroid
  else (sortClustersByWeight (dominantClusters o data k)).map (fun c => clampRoundColor c.1)

theorem length_kmppLoop (o : Oracle) (data : List DataPoint) (k : Nat) :
    ∀ (fuel : Nat) (cs : List Color), k ≤ cs.length + fuel →
    (kmppLoop o data k fuel cs).length = max cs.length k := by
  intro fuel
  induction fuel with
  | zero => intro cs h; simp [kmppLoop]; omega
  | succ n ih =>
    intro cs h
    by_cases hlt : cs.length < k
    · have := ih (cs ++ [toCentroid
        ((pickByScore (o.seed cs.length)
          (data.zip (data.map (fun d => nearestDistSq cs d * d.count)))).getD (lastD data))])
        (by simp; omega)
      simp only [kmppLoop, if_pos hlt]
      simp at this ⊢
      omega
    · simp only [kmppLoop, if_neg hlt]; omega

theorem length_initializeCentroidsKMeansPP (o : Oracle) (data : List DataPoint) (k : Nat) :
    (initializeCentroidsKMeansPP o data k).length = max 1 k := by
  unfold initializeCentroidsKMeansPP
  have := length_kmppLoop o data k k
    [toCentroid ((pickByWeight (o.seed 0) data).getD (lastD data))] (by simp)
  simpa using this

theorem length_assignSums (data : List DataPoint) (cs : List Color) :
    (assignSums data cs).length = cs.length := by
  unfold assignSums
  have : ∀ (l : List DataPoint) (init : List SumAcc),
      (l.foldl (addPoint cs) init).length = init.length := by
    intro l
    induction l with
    | nil => intro init; rfl
    | cons d rest ih =>
      intro init
      simp only [List.foldl_cons]
      rw [ih]
      exact length_updAt _ init (bestIndex cs d)
  rw [this]; simp

theorem length_updateLoop (o : Oracle) (data : List DataPoint) (iter : Nat) :
    ∀ (l : List (Color × SumAcc)) (i : Nat),
    (updateLoop o data iter l i).1.length = l.length ∧
    (updateLoop o data iter l i).2.1.length = l.length := by
  intro l
  induction l with
  | nil => intro i; simp [updateLoop]
  | cons p rest ih =>
    intro i
    obtain ⟨h1, h2⟩ := ih (i + 1)
    obtain ⟨c, s⟩ := p
    by_cases hw : 0 < s.weight
    · simp only [updateLoop, if_pos hw, List.length_cons]
      exact ⟨congrArg Nat.succ h1, congrArg Nat.succ h2⟩
    · simp only [updateLoop, if_neg hw, List.length_cons]
      exact ⟨congrArg Nat.succ h1, congrArg Nat.succ h2⟩

theorem length_kmLoop (o : Oracle) (data : List DataPoint) :
    ∀ (fuel iter : Nat) (cs : List Color) (ws : List ℚ), ws.length = cs.length →
    (kmLoop o data fuel iter cs ws).1.length = cs.length ∧
    (kmLoop o data fuel iter cs ws).2.length = cs.length := by
  intro fuel
  induction fuel with
  | zero => intro iter cs ws hw; exact ⟨rfl, hw⟩
  | succ n ih =>
    intro iter cs ws hw
    have hzip : (cs.zip (assignSums data cs)).length = cs.length := by
      simp [List.length_zip, length_assignSums]
    obtain ⟨u1, u2⟩ := length_updateLoop o data iter (cs.zip (assignSums data cs)) 0
    by_cases hc : (updateLoop o data iter (cs.zip (assignSums data cs)) 0).2.2 = true
    · simp only [kmLoop, hc, if_pos]
      rw [u1, u2, hzip]; exact ⟨rfl, rfl⟩
    · simp only [kmLoop, hc]
      have := ih (iter + 1) (updateLoop o data iter (cs.zip (assignSums data cs)) 0).1
        (updateLoop o data iter (cs.zip (assignSums data cs)) 0).2.1
        (by rw [u1, u2])
      simp only [Bool.false_eq_true, if_false] at *
      rw [this.1, this.2, u1, hzip]
      exact ⟨rfl, rfl⟩

theorem length_dominantClusters (o : Oracle) (data : List DataPoint) (k : Nat) :
    (dominantClusters o data k).length = max 1 k := by
  unfold dominantClusters kMeansClustering
  have hinit := length_initializeCentroidsKMeansPP o data k
  have h2 := length_kmLoop o data 10 0 (initializeCentroidsKMeansPP o data k)
    (List.replicate (initializeCentroidsKMeansPP o data k).length 0) (by simp)
  rw [List.length_zip, h2.1, h2.2, hinit]
  simp

/- ## Median-cut quantization (src/color/processing.ts lines 392-530, 550-607) -/

/-- The `ColorBox` interface (lines 392-400): a point subset with cached
per-channel bounds. -/
structure ColorBox where
  data : List DataPoint
  rMin : ℚ
  rMax : ℚ
  gMin : ℚ
  gMax : ℚ
  bMin : ℚ
  bMax : ℚ
deriving DecidableEq, Repr

/-- `createColorBox` (lines 405-423).  The source folds the bounds starting
from `±Infinity`; on the nonempty point lists this function actually receives
that fold equals the head-seeded fold used here (`minQ`/`maxQ`), and the
bounds of an empty box are never read. -/
def createColorBox (data : List DataPoint) : ColorBox :=
  ⟨data,
   minQ (data.map (·.r)), maxQ (data.map (·.r)),
   minQ (data.map (·.g)), maxQ (data.map (·.g)),
   minQ (data.map (·.b)), maxQ (data.map (·.b))⟩

/-- `Math.max(rRange, gRange, bRange)` for the box-selection scan
(line 511). -/
def boxRange (box : ColorBox) : ℚ :=
  max (box.rMax - box.rMin) (max (box.gMax - box.gMin) (box.bMax - box.bMin))

/-- Channel choice of `splitBox` (lines 429-438): `'g'` when its range weakly
dominates both others, else `'b'` under the same test, else `'r'`.  Returned
as the channel accessor used for sorting. -/
def splitKey (box : ColorBox) : DataPoint → ℚ :=
  let rRange := box.rMax - box.rMin
  let gRange := box.gMax - box.gMin
  let bRange := box.bMax - box.bMin
  if rRange ≤ gRange ∧ bRange ≤ gRange then (·.g)
  else if rRange ≤ bRange ∧ gRange ≤ bRange then (·.b)
  else (·.r)

/-- The weighted-median walk of `splitBox` (lines 444-454): stop at the first
index whose cumulative weight reaches half the total; `medianIndex` keeps its
initial value 0 when the walk never stops. -/
def medianScan (half : ℚ) : ℚ → Nat → List DataPoint → Option Nat
  | _, _, [] => none
  | cum, i, d :: rest =>
    if half ≤ cum + d.count then some i else medianScan half (cum + d.count) (i + 1) rest

/-- `splitBox` (lines 428-465): sort by the longest channel (stable sort),
cut at the weighted median forced to be at least 1, and box both halves. -/
def splitBox (box : ColorBox) : ColorBox × ColorBox :=
  let key := splitKey box
  let sortedData := box.data.mergeSort (fun a b => decide (key a ≤ key b))
  let totalCount := (sortedData.map (·.count)).sum
  let medianIndex0 := (medianScan (totalCount / 2) 0 0 sortedData).getD 0
  let medianIndex := if medianIndex0 = 0 then 1 else medianIndex0
  (createColorBox (sortedData.take medianIndex), createColorBox (sortedData.drop medianIndex))

/-- `computeAverageColor` (lines 470-488): frequency-weighted mean, rounded.
The division by a zero total (JS `NaN`) cannot occur at the call sites, whose
boxes hold points of positive count. -/
def computeAverageColor (data : List DataPoint) : Color :=
  let total := (data.map (·.count)).sum
  ⟨(jsRound ((data.map (fun p => p.r * p.count)).sum / total) : ℤ),
   (jsRound ((data.map (fun p => p.g * p.count)).sum / total) : ℤ),
   (jsRound ((data.map (fun p => p.b * p.count)).sum / total) : ℤ)⟩

/-- The box-selection scan of `medianCutQuantize` (lines 506-519): first index
of the strictly largest range (`-Infinity` start adopts the head), `none` when
no box exists. -/
def selectBoxIdx (boxes : List ColorBox) : Option Nat := firstMaxIdx boxRange boxes

/-- The `while (boxes.length < paletteSize)` loop of `medianCutQuantize`
(lines 505-526), instrumented with a log of the sizes of the boxes it splits.
Each iteration grows the box list by one, so a fuel of `paletteSize` reaches
the loop condition's exit. -/
def mcLoop (paletteSize : Nat) : Nat → List ColorBox → List Nat → List ColorBox × List Nat
  | 0, boxes, log => (boxes, log)
  | fuel + 1, boxes, log =>
    if boxes.length < paletteSize then
      match selectBoxIdx boxes with
      | none => (boxes, log)
      | some i =>
        let boxToSplit := boxes.getD i (createColorBox [])
        if boxToSplit.data.length ≤ 1 then (boxes, log)
        else
          let halves := splitBox boxToSplit
          mcLoop paletteSize fuel
            (boxes.take i ++ [halves.1, halves.2] ++ boxes.drop (i + 1))
            (boxToSplit.data.length :: log)
    else (boxes, log)

/-- The box list computed by `medianCutQuantize` for nonempty data, together
with the sizes of all boxes that were split. -/
def medianCutBoxes (data : List DataPoint) (paletteSize : Nat) :
    List ColorBox × List Nat :=
  mcLoop paletteSize paletteSize [createColorBox data] []

/-- `medianCutQuantize` (lines 496-530). -/
def medianCutQuantize (data : List DataPoint) (paletteSize : Nat) : List Color :=
  if data.length = 0 then []
  else (medianCutBoxes data paletteSize).1.map (fun box => computeAverageColor box.data)

/-- `getSaturation` (lines 533-537). -/
def getSaturation (c : Color) : ℚ :=
  let mx := max c.r (max c.g c.b)
  let mn := min c.r (min c.g c.b)
  if mx = 0 then 0 else (mx - mn) / mx

/-- `const saturationFactor = 1` (line 574). -/
def saturationFactor : ℚ := 1

/-- The saturation boost of `extractColorPalette` (lines 592-596):
`effectiveCount = count * (1 + saturationFactor * saturation)`. -/
def boostedDataPoint (c : Color) (count : ℚ) : DataPoint :=
  ⟨c.r, c.g, c.b, count * (1 + saturationFactor * getSaturation c)⟩

/-- `extractColorPalette` (lines 550-607), taking the unique-colour frequency
list the source builds from the canvas pixels (insertion order; every
generated key parses, so no entry is dropped). -/
def extractColorPalette (colorCounts : List (Color × ℚ)) (paletteSize : Nat) :
    List Color :=
  let data := colorCounts.map (fun p => boostedDataPoint p.1 p.2)
  if data.length = 0 then [] else medianCutQuantize data paletteSize

theorem firstMaxAux_mem (f : α → ℚ) :
    ∀ (xs : List α) (i b : Nat) (v : ℚ),
    firstMaxAux f xs i b v = b ∨
    (i ≤ firstMaxAux f xs i b v ∧ firstMaxAux f xs i b v < i + xs.length) := by
  intro xs
  induction xs with
  | nil => intro i b v; exact Or.inl rfl
  | cons x rest ih =>
    intro i b v
    simp only [firstMaxAux]
    by_cases h : v < f x
    · rw [if_pos h]
      rcases ih (i + 1) i (f x) with h2 | h2
      · right; rw [h2]; simp
      · right; constructor <;> [omega; (simp only [List.length_cons]; omega)]
    · rw [if_neg h]
      rcases ih (i + 1) b v with h2 | h2
      · exact Or.inl h2
      · right; constructor <;> [omega; (simp only [List.length_cons]; omega)]

theorem firstMaxIdx_lt_length (f : α → ℚ) (l : List α) (i : Nat)
    (h : firstMaxIdx f l = some i) : i < l.length := by
  cases l with
  | nil => simp [firstMaxIdx] at h
  | cons x rest =>
    simp only [firstMaxIdx, Option.some.injEq] at h
    rcases firstMaxAux_mem f rest 1 0 (f x) with h2 | h2
    · rw [← h, h2]; simp
    · rw [← h]; simp only [List.length_cons]; omega

theorem mcLoop_spec (paletteSize : Nat) :
    ∀ (fuel : Nat) (boxes : List ColorBox) (log : List Nat),
    (mcLoop paletteSize fuel boxes log).1.length ≤ max boxes.length paletteSize ∧
    (∀ n ∈ (mcLoop paletteSize fuel boxes log).2, n ∈ log ∨ 2 ≤ n) := by
  intro fuel
  induction fuel with
  | zero => intro boxes log; exact ⟨by simp [mcLoop], fun n hn => Or.inl hn⟩
  | succ m ih =>
    intro boxes log
    simp only [mcLoop]
    by_cases hlt : boxes.length < paletteSize
    · rw [if_pos hlt]
      cases hsel : selectBoxIdx boxes with
      | none => exact ⟨by simp, fun n hn => Or.inl hn⟩
      | some i =>
        have hi : i < boxes.length := firstMaxIdx_lt_length boxRange boxes i hsel
        simp only
        by_cases hone : (boxes.getD i (createColorBox [])).data.length ≤ 1
        · rw [if_pos hone]
          exact ⟨by simp, fun n hn => Or.inl hn⟩
        · rw [if_neg hone]
          have htake : (boxes.take i ++ [(splitBox (boxes.getD i (createColorBox []))).1,
              (splitBox (boxes.getD i (createColorBox []))).2] ++ boxes.drop (i + 1)).length ≤
              boxes.length + 1 := by
            simp only [List.length_append, List.length_cons, List.length_nil,
              List.length_take, List.length_drop]
            omega
          obtain ⟨ha, hb⟩ := ih (boxes.take i ++ [(splitBox (boxes.getD i (createColorBox []))).1,
              (splitBox (boxes.getD i (createColorBox []))).2] ++ boxes.drop (i + 1))
            ((boxes.getD i (createColorBox [])).data.length :: log)
          constructor
          · calc _ ≤ _ := ha
            _ ≤ max (boxes.length + 1) paletteSize := by
                apply max_le_max_right
                exact htake
            _ ≤ max boxes.length paletteSize := by omega
          · intro n hn
            rcases hb n hn with h | h
            · rcases List.mem_cons.mp h with h | h
              · right; omega
              · exact Or.inl h
            · exact Or.inr h
    · rw [if_neg hlt]
      exact ⟨by simp, fun n hn => Or.inl hn⟩

/- ## Distinct palette selection (src/color/processing.ts lines 8, 610-683) -/

/-- Squared Euclidean colour distance.  The source's `colorDistance`
(lines 610-615) applies `Math.sqrt` to this value; the distance only ever
feeds order comparisons, and the square root is strictly monotone on
nonnegative arguments, so every comparison is unchanged by dropping it. -/
def colorDistanceSq (c1 c2 : Color) : ℚ :=
  (c1.r - c2.r) * (c1.r - c2.r) + (c1.g - c2.g) * (c1.g - c2.g) +
  (c1.b - c2.b) * (c1.b - c2.b)

/-- The sort `(a, b) => getSaturation(b) - getSaturation(a)` (lines 644-646):
stable sort by descending saturation. -/
def sortBySaturationDesc (l : List Color) : List Color :=
  l.mergeSort (fun a b => decide (getSaturation b ≤ getSaturation a))

/-- The inner loop of lines 659-665: minimum distance from a candidate to the
already-selected colours (`Infinity` start; `selected` is nonempty). -/
def minDistToSelected (selected : List Color) (c : Color) : ℚ :=
  minQ (selected.map (fun sel => colorDistanceSq c sel))

/-- The greedy `while` loop of lines 652-679: repeatedly take the candidate
whose minimum distance to the selected set is largest (first strict maximum
wins) until `distinctCount` colours are selected or candidates run out.  One
candidate is moved per iteration, so a fuel of `distinctCount` reaches the
exit condition. -/
def greedyLoop (distinctCount : Nat) : Nat → List Color → List Color → List Color
  | 0, selected, _ => selected
  | fuel + 1, selected, cands =>
    if selected.length < distinctCount ∧ cands ≠ [] then
      match firstMaxIdx (minDistToSelected selected) cands with
      | some i =>
        greedyLoop distinctCount fuel (selected ++ [cands.getD i ⟨0, 0, 0⟩]) (removeAt cands i)
      | none => selected
    else selected

/-- The selection phase of `extractDistinctColorPalette` (lines 638-682),
as a function of the already-computed candidate palette: return small
palettes unchanged, otherwise sort by descending saturation, seed with the
head and run the greedy loop.  (The sorted list is nonempty in the else
branch; the empty match arm is unreachable.) -/
def distinctSelect (candidatePalette : List Color) (distinctCount : Nat) : List Color :=
  if candidatePalette.length ≤ distinctCount then candidatePalette
  else
    match sortBySaturationDesc candidatePalette with
    | [] => []
    | first :: rest => greedyLoop distinctCount distinctCount [first] rest

/-- Modelled from the spec (§4.5): the same selection described by its words —
"repeatedly pick the remaining candidate whose minimum Euclidean distance to
any already-selected color is largest, breaking ties by first-encountered
index" — with the choice written as the first index attaining the maximum of
the candidates' scores. -/
def greedyLoopSpec (distinctCount : Nat) : Nat → List Color → List Color → List Color
  | 0, selected, _ => selected
  | fuel + 1, selected, cands =>
    if selected.length < distinctCount ∧ cands ≠ [] then
      let score := minDistToSelected selected
      let i := cands.findIdx (fun c => decide (score c = maxQ (cands.map score)))
      greedyLoopSpec distinctCount fuel (selected ++ [cands.getD i ⟨0, 0, 0⟩]) (removeAt cands i)
    else selected

/-- Modelled from the spec (§4.5): the whole selection phase in the spec's
words — return candidates ≤ target unchanged; else sort by descending
saturation, seed with the single highest-saturation candidate, and select
greedily by largest minimum distance with first-index tie-breaking. -/
def distinctSelectSpec (candidatePalette : List Color) (distinctCount : Nat) : List Color :=
  if candidatePalette.length ≤ distinctCount then candidatePalette
  else
    match sortBySaturationDesc candidatePalette with
    | [] => []
    | first :: rest => greedyLoopSpec distinctCount distinctCount [first] rest

/-- `const CANDIDATE_SIZE_FACTOR = 12` (line 8). -/
def CANDIDATE_SIZE_FACTOR : Nat := 12

/-- The declared default of `extractDistinctColorPalette`'s third parameter,
`candidateSizeFactor: number = 2` (line 632). -/
def defaultCandidateSizeFactor : Nat := 2

/-- `const candidateCount = distinctCount * candidateSizeFactor` (line 635). -/
def candidateCount (distinctCount candidateSizeFactor : Nat) : Nat :=
  distinctCount * candidateSizeFactor

/-- `extractDistinctColorPalette` (lines 629-683), as a function of the
unique-colour frequency list the source reads from the canvas. -/
def extractDistinctColorPalette (colorCounts : List (Color × ℚ)) (distinctCount : Nat)
    (candidateSizeFactor : Nat) : List Color :=
  let candidatePalette :=
    extractColorPalette colorCounts (candidateCount distinctCount candidateSizeFactor)
  distinctSelect candidatePalette distinctCount

/-- The candidate-palette size `analyzeImageColors` requests for the distinct
palette (lines 81-85 passing `CANDIDATE_SIZE_FACTOR` into line 635). -/
def analyzeCandidateRequest (paletteSize : Nat) : Nat :=
  candidateCount paletteSize CANDIDATE_SIZE_FACTOR

/-- The distinct-palette step of `analyzeImageColors` (lines 81-85). -/
def analyzeDistinctPalette (colorCounts : List (Color × ℚ)) (paletteSize : Nat) :
    List Color :=
  extractDistinctColorPalette colorCounts paletteSize CANDIDATE_SIZE_FACTOR

theorem foldl_max_init_le : ∀ (l : List ℚ) (b : ℚ), b ≤ l.foldl max b := by
  intro l
  induction l with
  | nil => intro b; exact le_refl b
  | cons x xs ih =>
    intro b
    exact le_trans (le_max_left b x) (ih (max b x))

theorem firstMaxAux_eq_findIdx (f : α → ℚ) :
    ∀ (xs : List α) (i b : Nat) (v : ℚ),
    firstMaxAux f xs i b v =
      if (xs.map f).foldl max v = v then b
      else i + xs.findIdx (fun x => decide (f x = (xs.map f).foldl max v)) := by
  intro xs
  induction xs with
  | nil => intro i b v; simp [firstMaxAux]
  | cons x rest ih =>
    intro i b v
    simp only [firstMaxAux, List.map_cons, List.foldl_cons]
    by_cases hv : v < f x
    · rw [if_pos hv]
      have hmax : max v (f x) = f x := max_eq_right (le_of_lt hv)
      rw [ih (i + 1) i (f x)]
      simp only [hmax]
      have hM : f x ≤ (rest.map f).foldl max (f x) := foldl_max_init_le (rest.map f) (f x)
      have hMv : ¬((rest.map f).foldl max (f x) = v) := by
        intro hcon; rw [hcon] at hM; exact absurd hv (not_lt.mpr hM)
      rw [if_neg hMv]
      by_cases heq : (rest.map f).foldl max (f x) = f x
      · rw [if_pos heq, List.findIdx_cons]
        have : (decide (f x = (rest.map f).foldl max (f x))) = true := by
          rw [heq]; simp
        rw [this]
        simp
      · rw [if_neg heq, List.findIdx_cons]
        have : (decide (f x = (rest.map f).foldl max (f x))) = false := by
          simp only [decide_eq_false_iff_not]
          intro hcon; exact heq hcon.symm
        rw [this]
        simp only [cond_false]
        omega
    · rw [if_neg hv]
      have hfx : f x ≤ v := not_lt.mp hv
      have hmax : max v (f x) = v := max_eq_left hfx
      rw [ih (i + 1) b v]
      simp only [hmax]
      by_cases heq : (rest.map f).foldl max v = v
      · rw [if_pos heq, if_pos heq]
      · rw [if_neg heq, if_neg heq, List.findIdx_cons]
        have hMv : v ≤ (rest.map f).foldl max v := foldl_max_init_le (rest.map f) v
        have : (decide (f x = (rest.map f).foldl max v)) = false := by
          simp only [decide_eq_false_iff_not]
          intro hcon
          have : (rest.map f).foldl max v ≤ v := hcon ▸ hfx
          exact heq (le_antisymm this hMv)
        rw [this]
        simp only [cond_false]
        omega

theorem firstMaxIdx_eq_findIdx (f : α → ℚ) (x : α) (rest : List α) :
    firstMaxIdx f (x :: rest) =
      some ((x :: rest).findIdx (fun y => decide (f y = maxQ ((x :: rest).map f)))) := by
  simp only [firstMaxIdx, Option.some.injEq]
  rw [firstMaxAux_eq_findIdx]
  have hQ : maxQ ((x :: rest).map f) = (rest.map f).foldl max (f x) := by
    simp [maxQ]
  rw [List.findIdx_cons, hQ]
  by_cases heq : (rest.map f).foldl max (f x) = f x
  · rw [if_pos heq]
    have : (decide (f x = (rest.map f).foldl max (f x))) = true := by rw [heq]; simp
    rw [this]
    simp
  · rw [if_neg heq]
    have : (decide (f x = (rest.map f).foldl max (f x))) = false := by
      simp only [decide_eq_false_iff_not]
      intro hcon; exact heq hcon.symm
    rw [this]
    simp only [cond_false]
    omega

theorem greedyLoop_eq_spec (distinctCount : Nat) :
    ∀ (fuel : Nat) (selected cands : List Color),
    greedyLoop distinctCount fuel selected cands =
      greedyLoopSpec distinctCount fuel selected cands := by
  intro fuel
  induction fuel with
  | zero => intro selected cands; rfl
  | succ n ih =>
    intro selected cands
    simp only [greedyLoop, greedyLoopSpec]
    by_cases hc : selected.length < distinctCount ∧ cands ≠ []
    · rw [if_pos hc, if_pos hc]
      obtain ⟨-, hne⟩ := hc
      cases cands with
      | nil => exact absurd rfl hne
      | cons c rest =>
        rw [firstMaxIdx_eq_findIdx]
        simp only
        exact ih _ _
    · rw [if_neg hc, if_neg hc]

/- ## Block variance (src/color/processing.ts lines 690-789) -/

/-- `const BLOCK_SIZE = 16` (line 704). -/
def BLOCK_SIZE : Nat := 16

/-- Read the RGB channels of the pixel at `(x, y)` from the flat RGBA buffer
(lines 725-728, 752-755): index `(y * width + x) * 4`.  An out-of-range read
is `undefined` in JS and skipped by the falsy test exactly as a 0 is, so the
default 0 is faithful. -/
def pixAt (pixels : List Nat) (width x y : Nat) : Nat × Nat × Nat :=
  let i := (y * width + x) * 4
  (pixels.getD i 0, pixels.getD (i + 1) 0, pixels.getD (i + 2) 0)

/-- The skip test `!r || !g || !b` (lines 730, 757): channel values are
naturals, where only 0 is falsy. -/
def hasZeroChannel (p : Nat × Nat × Nat) : Prop := p.1 = 0 ∨ p.2.1 = 0 ∨ p.2.2 = 0

instance (p : Nat × Nat × Nat) : Decidable (hasZeroChannel p) := by
  unfold hasZeroChannel; infer_instance

/-- The pixels of one block, in the loop order of the source (`y` outer, `x`
inner, both passes identical). -/
def blockPixelList (pixels : List Nat) (width startX endX startY endY : Nat) :
    List (Nat × Nat × Nat) :=
  (List.range (endY - startY)).flatMap fun dy =>
    (List.range (endX - startX)).map fun dx =>
      pixAt pixels width (startX + dx) (startY + dy)

/-- Accumulator of the first (mean) pass (lines 717-737). -/
structure BlockAcc where
  totalR : ℚ
  totalG : ℚ
  totalB : ℚ
  pixelCount : Nat
deriving DecidableEq, Repr

/-- First pass over a block: per-channel totals and the count of pixels that
were not skipped. -/
def blockMeanPass (ps : List (Nat × Nat × Nat)) : BlockAcc :=
  ps.foldl
    (fun t p =>
      if hasZeroChannel p then t
      else ⟨t.totalR + p.1, t.totalG + p.2.1, t.totalB + p.2.2, t.pixelCount + 1⟩)
    ⟨0, 0, 0, 0⟩

/-- Accumulator of the second (variance) pass (lines 745-767). -/
structure VarAcc where
  varR : ℚ
  varG : ℚ
  varB : ℚ
deriving DecidableEq, Repr

/-- Second pass over a block: sums of squared deviations from the means,
with the same skip test. -/
def blockVarPass (ps : List (Nat × Nat × Nat)) (meanR meanG meanB : ℚ) : VarAcc :=
  ps.foldl
    (fun t p =>
      if hasZeroChannel p then t
      else ⟨t.varR + ((p.1 : ℚ) - meanR) * ((p.1 : ℚ) - meanR),
            t.varG + ((p.2.1 : ℚ) - meanG) * ((p.2.1 : ℚ) - meanG),
            t.varB + ((p.2.2 : ℚ) - meanB) * ((p.2.2 : ℚ) - meanB)⟩)
    ⟨0, 0, 0⟩

/-- Per-block variances (lines 717-774): `none` when every pixel of the block
was skipped (`continue`, line 739), else the two-pass population variance per
channel. -/
def blockVariance (ps : List (Nat × Nat × Nat)) : Option (ℚ × ℚ × ℚ) :=
  let acc := blockMeanPass ps
  if acc.pixelCount = 0 then none
  else
    let v := blockVarPass ps (acc.totalR / acc.pixelCount) (acc.totalG / acc.pixelCount)
      (acc.totalB / acc.pixelCount)
    some (v.varR / acc.pixelCount, v.varG / acc.pixelCount, v.varB / acc.pixelCount)

/-- The block iteration of `calculateColorVariance` (lines 705-775):
`Math.ceil(width / 16)` by `Math.ceil(height / 16)` blocks in row-major order,
edge blocks truncated by `Math.min`, blocks without counted pixels dropped. -/
def blockVariancesList (pixels : List Nat) (width height : Nat) : List (ℚ × ℚ × ℚ) :=
  let blocksX := (width + BLOCK_SIZE - 1) / BLOCK_SIZE
  let blocksY := (height + BLOCK_SIZE - 1) / BLOCK_SIZE
  (List.range blocksY).flatMap fun blockY =>
    (List.range blocksX).filterMap fun blockX =>
      let startX := blockX * BLOCK_SIZE
      let startY := blockY * BLOCK_SIZE
      blockVariance (blockPixelList pixels width startX (min (startX + BLOCK_SIZE) width)
        startY (min (startY + BLOCK_SIZE) height))

/-- The ascending sort `(a, b) => a - b` (lines 778-780). -/
def sortAsc (l : List ℚ) : List ℚ := l.mergeSort (fun a b => decide (a ≤ b))

/-- `calculateColorVariance` (lines 690-789): per channel, the ascending-sorted
block variances at index `Math.floor(n * 0.75)`, defaulting to 0 when the
index is out of range (`|| 0`; a present variance of 0 also yields 0, the same
value). -/
def calculateColorVariance (pixels : List Nat) (width height : Nat) : ℚ × ℚ × ℚ :=
  let bv := blockVariancesList pixels width height
  let percentileIndex := bv.length * 3 / 4
  ((sortAsc (bv.map (·.1))).getD percentileIndex 0,
   (sortAsc (bv.map (·.2.1))).getD percentileIndex 0,
   (sortAsc (bv.map (·.2.2))).getD percentileIndex 0)

/-- Modelled from the spec (§4.6): the pixels of a block that are counted,
i.e. those without "a zero value in any channel". -/
def specCountedPixels (ps : List (Nat × Nat × Nat)) : List (Nat × Nat × Nat) :=
  ps.filter (fun p => decide (¬hasZeroChannel p))

/-- Modelled from the spec (§4.6): population variance of a list of values,
computed two-pass (mean first, then mean squared deviation). -/
def popVariance (xs : List ℚ) : ℚ :=
  let n : ℚ := xs.length
  let mean := xs.sum / n
  (xs.map (fun x => (x - mean) * (x - mean))).sum / n

/-- Modelled from the spec (§4.6): a block contributes its per-channel
population variance over its counted pixels, or nothing when no pixel is
counted. -/
def specBlockVariance (ps : List (Nat × Nat × Nat)) : Option (ℚ × ℚ × ℚ) :=
  let counted := specCountedPixels ps
  if counted.length = 0 then none
  else
    some (popVariance (counted.map (fun p => (p.1 : ℚ))),
          popVariance (counted.map (fun p => (p.2.1 : ℚ))),
          popVariance (counted.map (fun p => (p.2.2 : ℚ))))

/-- Modelled from the spec (§4.6): tile the image into 16×16 blocks truncated
to the image bounds, collect the per-channel population block variances over
the blocks with at least one counted pixel, sort each channel ascending and
report the value at index `floor(n × 0.75)` where `n` is the number of such
blocks. -/
def calculateColorVarianceSpec (pixels : List Nat) (width height : Nat) : ℚ × ℚ × ℚ :=
  let blocksX := (width + BLOCK_SIZE - 1) / BLOCK_SIZE
  let blocksY := (height + BLOCK_SIZE - 1) / BLOCK_SIZE
  let bv := (List.range blocksY).flatMap fun blockY =>
    (List.range blocksX).filterMap fun blockX =>
      let startX := blockX * BLOCK_SIZE
      let startY := blockY * BLOCK_SIZE
      specBlockVariance (blockPixelList pixels width startX (min (startX + BLOCK_SIZE) width)
        startY (min (startY + BLOCK_SIZE) height))
  let percentileIndex := bv.length * 3 / 4
  ((sortAsc (bv.map (·.1))).getD percentileIndex 0,
   (sortAsc (bv.map (·.2.1))).getD percentileIndex 0,
   (sortAsc (bv.map (·.2.2))).getD percentileIndex 0)

theorem foldl_skip {β : Type} (f : β → (Nat × Nat × Nat) → β) :
    ∀ (l : List (Nat × Nat × Nat)) (init : β),
    l.foldl (fun t p => if hasZeroChannel p then t else f t p) init =
      (specCountedPixels l).foldl f init := by
  intro l
  induction l with
  | nil => intro init; rfl
  | cons p rest ih =>
    intro init
    simp only [List.foldl_cons, specCountedPixels, List.filter_cons]
    by_cases hz : hasZeroChannel p
    · rw [if_pos hz]
      have : (decide (¬hasZeroChannel p)) = false := by simp [hz]
      rw [this]
      exact ih init
    · rw [if_neg hz]
      have : (decide (¬hasZeroChannel p)) = true := by simp [hz]
      rw [this]
      simp only [List.foldl_cons]
      exact ih (f init p)

theorem blockAcc_fold :
    ∀ (l : List (Nat × Nat × Nat)) (init : BlockAcc),
    l.foldl (fun t p =>
      (⟨t.totalR + p.1, t.totalG + p.2.1, t.totalB + p.2.2, t.pixelCount + 1⟩ : BlockAcc)) init =
      ⟨init.totalR + (l.map (fun p => (p.1 : ℚ))).sum,
       init.totalG + (l.map (fun p => (p.2.1 : ℚ))).sum,
       init.totalB + (l.map (fun p => (p.2.2 : ℚ))).sum,
       init.pixelCount + l.length⟩ := by
  intro l
  induction l with
  | nil => intro init; simp
  | cons p rest ih =>
    intro init
    simp only [List.foldl_cons, List.map_cons, List.sum_cons, List.length_cons]
    rw [ih]
    simp only [BlockAcc.mk.injEq]
    refine ⟨by ring, by ring, by ring, by omega⟩

theorem varAcc_fold (mR mG mB : ℚ) :
    ∀ (l : List (Nat × Nat × Nat)) (init : VarAcc),
    l.foldl (fun t p =>
      (⟨t.varR + ((p.1 : ℚ) - mR) * ((p.1 : ℚ) - mR),
        t.varG + ((p.2.1 : ℚ) - mG) * ((p.2.1 : ℚ) - mG),
        t.varB + ((p.2.2 : ℚ) - mB) * ((p.2.2 : ℚ) - mB)⟩ : VarAcc)) init =
      ⟨init.varR + (l.map (fun p => ((p.1 : ℚ) - mR) * ((p.1 : ℚ) - mR))).sum,
       init.varG + (l.map (fun p => ((p.2.1 : ℚ) - mG) * ((p.2.1 : ℚ) - mG))).sum,
       init.varB + (l.map (fun p => ((p.2.2 : ℚ) - mB) * ((p.2.2 : ℚ) - mB))).sum⟩ := by
  intro l
  induction l with
  | nil => intro init; simp
  | cons p rest ih =>
    intro init
    simp only [List.foldl_cons, List.map_cons, List.sum_cons]
    rw [ih]
    simp only [VarAcc.mk.injEq]
    refine ⟨by ring, by ring, by ring⟩

theorem blockMeanPass_eq (ps : List (Nat × Nat × Nat)) :
    blockMeanPass ps =
      ⟨((specCountedPixels ps).map (fun p => (p.1 : ℚ))).sum,
       ((specCountedPixels ps).map (fun p => (p.2.1 : ℚ))).sum,
       ((specCountedPixels ps).map (fun p => (p.2.2 : ℚ))).sum,
       (specCountedPixels ps).length⟩ := by
  unfold blockMeanPass
  rw [foldl_skip, blockAcc_fold]
  simp

theorem blockVarPass_eq (ps : List (Nat × Nat × Nat)) (mR mG mB : ℚ) :
    blockVarPass ps mR mG mB =
      ⟨((specCountedPixels ps).map (fun p => ((p.1 : ℚ) - mR) * ((p.1 : ℚ) - mR))).sum,
       ((specCountedPixels ps).map (fun p => ((p.2.1 : ℚ) - mG) * ((p.2.1 : ℚ) - mG))).sum,
       ((specCountedPixels ps).map (fun p => ((p.2.2 : ℚ) - mB) * ((p.2.2 : ℚ) - mB))).sum⟩ := by
  unfold blockVarPass
  rw [foldl_skip, varAcc_fold]
  simp

theorem blockVariance_eq_spec (ps : List (Nat × Nat × Nat)) :
    blockVariance ps = specBlockVariance ps := by
  unfold blockVariance specBlockVariance
  rw [blockMeanPass_eq]
  dsimp only
  rw [blockVarPass_eq]
  by_cases h0 : (specCountedPixels ps).length = 0
  · rw [if_pos h0, if_pos h0]
  · rw [if_neg h0, if_neg h0]
    simp only [popVariance, Option.some.injEq, Prod.mk.injEq, List.map_map,
      List.length_map]
    exact ⟨rfl, rfl, rfl⟩

/- ## Colour space and weighted aggregates (src/color/processing.ts
lines 147-159, 297-327, 792-966) -/

/-- `calculatePixelBrightness` (lines 147-159): WCAG relative luminance.  The
gamma branch `Math.pow((s + 0.055) / 1.055, 2.4)` is a transcendental; its
power function is abstracted as the parameter `pow24`. -/
def calculatePixelBrightness (pow24 : ℚ → ℚ) (r g b : ℚ) : ℚ :=
  let sR := r / 255
  let sG := g / 255
  let sB := b / 255
  let rL := if sR ≤ 0.03928 then sR / 12.92 else pow24 ((sR + 0.055) / 1.055)
  let gL := if sG ≤ 0.03928 then sG / 12.92 else pow24 ((sG + 0.055) / 1.055)
  let bL := if sB ≤ 0.03928 then sB / 12.92 else pow24 ((sB + 0.055) / 1.055)
  0.2126 * rL + 0.7152 * gL + 0.0722 * bL

/-- Result of `rgbToHsl`. -/
structure HSL where
  h : ℚ
  s : ℚ
  l : ℚ
deriving DecidableEq, Repr

/-- `rgbToHsl` (lines 297-327): hue and saturation default to 0 when
`max = min`; otherwise the usual case split, with the `switch` trying the
red channel first, then green, then blue. -/
def rgbToHsl (color : Color) : HSL :=
  let r := color.r / 255
  let g := color.g / 255
  let b := color.b / 255
  let mx := max r (max g b)
  let mn := min r (min g b)
  let l := (mx + mn) / 2
  if mx = mn then ⟨0, 0, l⟩
  else
    let d := mx - mn
    let s := if 1 / 2 < l then d / (2 - mx - mn) else d / (mx + mn)
    let hRaw :=
      if mx = r then (g - b) / d + (if g < b then 6 else 0)
      else if mx = g then (b - r) / d + 2
      else (r - g) / d + 4
    ⟨hRaw / 6, s, l⟩

/-- The default of `isGrayscale`'s `threshold` parameter (line 876). -/
def defaultGrayscaleThreshold : ℚ := 0.05

/-- `isGrayscale` (lines 876-882). -/
def isGrayscale (color : Color) (threshold : ℚ) : Prop :=
  |color.r - color.g| < threshold * 255 ∧ |color.g - color.b| < threshold * 255 ∧
  |color.r - color.b| < threshold * 255

instance (color : Color) (threshold : ℚ) : Decidable (isGrayscale color threshold) := by
  unfold isGrayscale; infer_instance

/-- `getWeightedBrightness` (lines 956-966): 0 for an absent or empty list,
else the brightness average weighted by `1 / (index + 1)`. -/
def getWeightedBrightness (pow24 : ℚ → ℚ) (colors : Option (List Color)) : ℚ :=
  match colors with
  | none => 0
  | some cs =>
    if cs.length = 0 then 0
    else
      (cs.enum.map
        (fun ic => calculatePixelBrightness pow24 ic.2.r ic.2.g ic.2.b * (1 / ((ic.1 : ℚ) + 1)))).sum /
      (cs.enum.map (fun ic => (1 : ℚ) / ((ic.1 : ℚ) + 1))).sum

/-- `getWeightedHue` (lines 792-819): -1 for an empty list; otherwise
accumulate hue weighted by `(1 / (index + 1)) * saturation` over the
non-grayscale colours, returning -1 when none contributed or the total weight
is zero. -/
def getWeightedHue (colors : List Color) : ℚ :=
  if colors.length = 0 then -1
  else
    let acc := colors.enum.foldl
      (fun (t : ℚ × ℚ × Bool) ic =>
        if isGrayscale ic.2 defaultGrayscaleThreshold then t
        else
          let hsl := rgbToHsl ic.2
          let effectiveWeight := (1 / ((ic.1 : ℚ) + 1)) * hsl.s
          (t.1 + hsl.h * effectiveWeight, t.2.1 + effectiveWeight, true))
      (0, 0, false)
    if acc.2.2 = false ∨ acc.2.1 = 0 then -1 else acc.1 / acc.2.1

/- ## Metadata comparators (src/color/sorting.ts) -/

/-- The slice of `VisualMetadata` consulted by the four comparators under
study; `dominantColors` may be absent (`undefined`), which is falsy in JS —
an empty array is present and truthy. -/
structure VisualMetadataC where
  averageColor : Option Color
  dominantColors : Option (List Color)
deriving DecidableEq, Repr

/-- `getAverageColor` (sorting.ts lines 12-14): fall back to black. -/
def getAverageColor (m : VisualMetadataC) : Color := m.averageColor.getD ⟨0, 0, 0⟩

/-- `compareByLuminance` (sorting.ts lines 31-45): guard returning 0 when
either `dominantColors` is absent, then a ternary whose else branch falls
back to the brightness of the average colour. -/
def compareByLuminance (pow24 : ℚ → ℚ) (a b : VisualMetadataC) : ℚ :=
  if a.dominantColors = none ∨ b.dominantColors = none then 0
  else
    let aBrightness :=
      match a.dominantColors with
      | some _ => getWeightedBrightness pow24 a.dominantColors
      | none =>
        calculatePixelBrightness pow24 (getAverageColor a).r (getAverageColor a).g
          (getAverageColor a).b
    let bBrightness :=
      match b.dominantColors with
      | some _ => getWeightedBrightness pow24 b.dominantColors
      | none =>
        calculatePixelBrightness pow24 (getAverageColor b).r (getAverageColor b).g
          (getAverageColor b).b
    bBrightness - aBrightness

/-- Modelled from the spec: `compareByLuminance` with the average-colour
fallback branch of the ternaries removed (the branch the claim calls
unreachable). -/
def compareByLuminanceNoFallback (pow24 : ℚ → ℚ) (a b : VisualMetadataC) : ℚ :=
  match a.dominantColors, b.dominantColors with
  | some _, some _ =>
    getWeightedBrightness pow24 b.dominantColors - getWeightedBrightness pow24 a.dominantColors
  | _, _ => 0

/-- `compareByHue` (sorting.ts lines 47-64). -/
def compareByHue (pow24 : ℚ → ℚ) (a b : VisualMetadataC) : ℚ :=
  if a.dominantColors = none ∨ b.dominantColors = none then 0
  else
    let aHue := getWeightedHue (a.dominantColors.getD [getAverageColor a])
    let bHue := getWeightedHue (b.dominantColors.getD [getAverageColor b])
    if aHue = -1 ∧ bHue = -1 then compareByLuminance pow24 a b
    else if aHue = -1 then 1
    else if bHue = -1 then -1
    else aHue - bHue

/-- The inner `getWeightedSaturation` of `compareBySaturation` (sorting.ts
lines 76-108), returning the weighted saturation and the image-grayscale
flag.  (On an empty colour list the source divides 0 by 0, a JS `NaN`; that
input does not arise in the properties proved here.) -/
def getWeightedSaturation (colors : List Color) : ℚ × Bool :=
  let acc := colors.enum.foldl
    (fun (t : ℚ × ℚ × Bool) ic =>
      let color := ic.2
      let weight : ℚ := 1 / ((ic.1 : ℚ) + 1)
      let hsl := rgbToHsl color
      let maxDiff := max |color.r - color.g| (max |color.g - color.b| |color.r - color.b|)
      let isColorGrayscale := maxDiff < 8
      let newGray := if ¬isColorGrayscale ∧ (1 / 5 : ℚ) < weight then false else t.2.2
      let effectiveSaturation := if isColorGrayscale then (0 : ℚ) else hsl.s
      (t.1 + effectiveSaturation * weight, t.2.1 + weight, newGray))
    (0, 0, true)
  (acc.1 / acc.2.1, acc.2.2)

/-- `compareBySaturation` (sorting.ts lines 66-124). -/
def compareBySaturation (pow24 : ℚ → ℚ) (a b : VisualMetadataC) : ℚ :=
  if a.dominantColors = none ∨ b.dominantColors = none then 0
  else
    let aColors := a.dominantColors.getD [getAverageColor a]
    let bColors := b.dominantColors.getD [getAverageColor b]
    let aResult := getWeightedSaturation aColors
    let bResult := getWeightedSaturation bColors
    if aResult.2 = true ∧ bResult.2 = false then 1
    else if aResult.2 = false ∧ bResult.2 = true then -1
    else if aResult.2 = true ∧ bResult.2 = true then compareByLuminance pow24 a b
    else bResult.1 - aResult.1

/-- The inner `getColorTemperature` of `compareByColorTemperature`
(sorting.ts lines 297-307): warmth `(r - b) / 255` weighted by
`1 / (index + 1)`. -/
def getColorTemperature (colors : List Color) : ℚ :=
  (colors.enum.map (fun ic => ((ic.2.r - ic.2.b) / 255) * (1 / ((ic.1 : ℚ) + 1)))).sum /
  (colors.enum.map (fun ic => (1 : ℚ) / ((ic.1 : ℚ) + 1))).sum

/-- `compareByColorTemperature` (sorting.ts lines 292-313). -/
def compareByColorTemperature (a b : VisualMetadataC) : ℚ :=
  if a.dominantColors = none ∨ b.dominantColors = none then 0
  else
    let aColors := a.dominantColors.getD [getAverageColor a]
    let bColors := b.dominantColors.getD [getAverageColor b]
    getColorTemperature bColors - getColorTemperature aColors

/- ## VisualAnalyzer orchestration (src/color/processing.ts lines 14-114) -/

/-- The colour-frequency map of `analyzeImageColors` (lines 25, 48-50): a JS
`Map` keyed by `"r,g,b"` preserves insertion order; embedded as an
association list in first-occurrence order. -/
def countColorsAux : List (Color × ℚ) → Color → List (Color × ℚ)
  | [], c => [(c, 1)]
  | (c0, n) :: rest, c =>
    if c0 = c then (c0, n + 1) :: rest else (c0, n) :: countColorsAux rest c

/-- One pass over the flat RGBA buffer building the colour-frequency list. -/
def countColors : List Nat → List (Color × ℚ) → List (Color × ℚ)
  | r :: g :: b :: _ :: rest, acc =>
    countColors rest (countColorsAux acc ⟨(r : ℚ), (g : ℚ), (b : ℚ)⟩)
  | _, acc => acc

/-- The per-channel totals `totalR/totalG/totalB` of the pixel loop
(lines 26-28, 52-55). -/
def channelTotals : List Nat → ℚ × ℚ × ℚ → ℚ × ℚ × ℚ
  | r :: g :: b :: _ :: rest, t =>
    channelTotals rest (t.1 + (r : ℚ), t.2.1 + (g : ℚ), t.2.2 + (b : ℚ))
  | _, t => t

/-- The brightness accumulation of the pixel loop (lines 29-31, 57-61):
`(minBrightness, maxBrightness, totalBrightness)` starting at `(1, 0, 0)`. -/
def brightnessPass (pow24 : ℚ → ℚ) : List Nat → ℚ × ℚ × ℚ → ℚ × ℚ × ℚ
  | r :: g :: b :: _ :: rest, t =>
    let brightness := calculatePixelBrightness pow24 (r : ℚ) (g : ℚ) (b : ℚ)
    brightnessPass pow24 rest (min t.1 brightness, max t.2.1 brightness, t.2.2 + brightness)
  | _, t => t

/-- JavaScript division where the only zero-divisor case arising at the call
sites is `0 / 0`, whose IEEE result `NaN` is modelled as `none`. -/
def jsDivOpt (a b : ℚ) : Option ℚ := if b = 0 then none else some (a / b)

/-- The result record of `analyzeImageColors` (lines 105-113).  `averageColor`
channels and `averageBrightness` are optional because on an empty buffer the
source computes `0 / 0 = NaN` (modelled as `none`). -/
structure AnalysisResult where
  averageColor : Option ℚ × Option ℚ × Option ℚ
  dominantColors : List Color
  representativePaletteColors : List Color
  distinctPaletteColors : List Color
  histogram : Histogram
  averageBrightness : Option ℚ
  minBrightness : ℚ
  maxBrightness : ℚ
  colorVariance : ℚ × ℚ × ℚ
deriving DecidableEq, Repr

/-- `analyzeImageColors` (lines 14-114) over the decoded pixel buffer.
`dominantColorsCount` and `paletteColorsCount` stand for the constants
`DOMINANT_COLORS_COUNT` and `PALETTE_COLORS_COUNT`, imported from a module
that is not part of the repository snapshot; no claim depends on their
values, so they are parameters.  The distinct-palette step passes
`CANDIDATE_SIZE_FACTOR` (lines 81-85). -/
def analyzeImageColors (o : Oracle) (pow24 : ℚ → ℚ)
    (dominantColorsCount paletteColorsCount : Nat)
    (pixels : List Nat) (width height : Nat) : AnalysisResult :=
  let colorCounts := countColors pixels []
  let totals := channelTotals pixels (0, 0, 0)
  let bright := brightnessPass pow24 pixels (1, 0, 0)
  let totalPixels : ℚ := (pixels.length : ℚ) / 4
  ⟨((jsDivOpt totals.1 totalPixels).map (fun q => (jsRound q : ℚ)),
    (jsDivOpt totals.2.1 totalPixels).map (fun q => (jsRound q : ℚ)),
    (jsDivOpt totals.2.2 totalPixels).map (fun q => (jsRound q : ℚ))),
   extractDominantColors o
     (colorCounts.map (fun p => (⟨p.1.r, p.1.g, p.1.b, p.2⟩ : DataPoint)))
     dominantColorsCount,
   extractColorPalette colorCounts paletteColorsCount,
   extractDistinctColorPalette colorCounts paletteColorsCount CANDIDATE_SIZE_FACTOR,
   analyzeHistogram pixels,
   jsDivOpt bright.2.2 totalPixels,
   bright.1, bright.2.1,
   calculateColorVariance pixels width height⟩


/- ## Claim theorems -/

/-- C1: for every RGBA pixel buffer whose channel values are integers in
[0, 255], `analyzeImageColors` produces a histogram with 32 bins per channel
in which the bin counts of each channel (r, g and b separately) sum to
`totalPixels`, and `totalPixels` equals the number of pixels
(buffer length / 4). -/
theorem histogram_sums_to_totalPixels (pixels : List Nat)
    (h4 : pixels.length % 4 = 0) (hv : ∀ v ∈ pixels, v ≤ 255) :
    (analyzeHistogram pixels).r.length = 32 ∧
    (analyzeHistogram pixels).g.length = 32 ∧
    (analyzeHistogram pixels).b.length = 32 ∧
    sumCounts (analyzeHistogram pixels).r = (analyzeHistogram pixels).totalPixels ∧
    sumCounts (analyzeHistogram pixels).g = (analyzeHistogram pixels).totalPixels ∧
    sumCounts (analyzeHistogram pixels).b = (analyzeHistogram pixels).totalPixels ∧
    (analyzeHistogram pixels).totalPixels = pixels.length / 4 := by
  have hinit : initializeHistogram.r.length = 32 ∧ initializeHistogram.g.length = 32 ∧
      initializeHistogram.b.length = 32 ∧ sumCounts initializeHistogram.r = 0 ∧
      sumCounts initializeHistogram.g = 0 ∧ sumCounts initializeHistogram.b = 0 := by decide
  obtain ⟨i1, i2, i3, i4, i5, i6⟩ := hinit
  obtain ⟨p1, p2, p3, p4, p5, p6⟩ :=
    processPixelsHist_spec pixels initializeHistogram h4 hv i1 i2 i3
  refine ⟨?_, ?_, ?_, ?_, ?_, ?_, rfl⟩
  · simpa [analyzeHistogram] using p1
  · simpa [analyzeHistogram] using p2
  · simpa [analyzeHistogram] using p3
  · show sumCounts (processPixelsHist pixels initializeHistogram).r = pixels.length / 4
    rw [p4, i4]; omega
  · show sumCounts (processPixelsHist pixels initializeHistogram).g = pixels.length / 4
    rw [p5, i5]; omega
  · show sumCounts (processPixelsHist pixels initializeHistogram).b = pixels.length / 4
    rw [p6, i6]; omega

/-- Witness for C1: a concrete two-pixel RGBA buffer. -/
theorem histogram_sums_to_totalPixels_witness :
    ([255, 0, 0, 255, 10, 20, 30, 255] : List Nat).length % 4 = 0 ∧
    (∀ v ∈ ([255, 0, 0, 255, 10, 20, 30, 255] : List Nat), v ≤ 255) ∧
    ((analyzeHistogram [255, 0, 0, 255, 10, 20, 30, 255]).r.length = 32 ∧
     (analyzeHistogram [255, 0, 0, 255, 10, 20, 30, 255]).g.length = 32 ∧
     (analyzeHistogram [255, 0, 0, 255, 10, 20, 30, 255]).b.length = 32 ∧
     sumCounts (analyzeHistogram [255, 0, 0, 255, 10, 20, 30, 255]).r =
       (analyzeHistogram [255, 0, 0, 255, 10, 20, 30, 255]).totalPixels ∧
     sumCounts (analyzeHistogram [255, 0, 0, 255, 10, 20, 30, 255]).g =
       (analyzeHistogram [255, 0, 0, 255, 10, 20, 30, 255]).totalPixels ∧
     sumCounts (analyzeHistogram [255, 0, 0, 255, 10, 20, 30, 255]).b =
       (analyzeHistogram [255, 0, 0, 255, 10, 20, 30, 255]).totalPixels ∧
     (analyzeHistogram [255, 0, 0, 255, 10, 20, 30, 255]).totalPixels =
       ([255, 0, 0, 255, 10, 20, 30, 255] : List Nat).length / 4) :=
  ⟨by decide, by decide,
   histogram_sums_to_totalPixels [255, 0, 0, 255, 10, 20, 30, 255] (by decide) (by decide)⟩

/-- C9: `calculateColorVariance` tiles the image into 16×16 blocks truncated
to the image bounds, excludes every pixel with a zero channel from both the
mean and variance passes, computes per-block per-channel population variance,
and reports, per channel, the ascending-sorted block variances at index
`floor(n × 0.75)` over the `n` blocks with at least one counted pixel —
stated as equality with the definition transcribed from the spec's words. -/
theorem calculateColorVariance_matches_spec (pixels : List Nat) (width height : Nat) :
    calculateColorVariance pixels width height =
      calculateColorVarianceSpec pixels width height := by
  unfold calculateColorVariance calculateColorVarianceSpec blockVariancesList
  rw [show blockVariance = specBlockVariance from funext blockVariance_eq_spec]

/-- C6: the diversity selection returns candidate palettes of size at most the
target unchanged, and otherwise seeds with the single highest-saturation
candidate and repeatedly adds the remaining candidate with the largest minimum
distance to the selected set, first-encountered index winning ties — stated as
equality of the source's selection with the greedy selection transcribed from
the spec's words. -/
theorem distinctSelect_matches_spec (candidatePalette : List Color) (distinctCount : Nat) :
    distinctSelect candidatePalette distinctCount =
      distinctSelectSpec candidatePalette distinctCount := by
  unfold distinctSelect distinctSelectSpec
  by_cases hle : candidatePalette.length ≤ distinctCount
  · rw [if_pos hle, if_pos hle]
  · rw [if_neg hle, if_neg hle]
    cases sortBySaturationDesc candidatePalette with
    | nil => rfl
    | cons first rest => exact greedyLoop_eq_spec distinctCount distinctCount [first] rest


/-- Counterexample to C7 as stated: `analyzeImageColors` does not multiply the
palette size by a factor of 2 — the factor it passes, `CANDIDATE_SIZE_FACTOR`,
is 12, so for a configured palette size of 1 the requested candidate-palette
size is 12, not 2. -/
theorem analyzeCandidateRequest_ne_two :
    analyzeCandidateRequest 1 = 12 ∧
    analyzeCandidateRequest 1 ≠ candidateCount 1 defaultCandidateSizeFactor := by
  decide

/-- C7 (amended): when `analyzeImageColors` computes the distinct palette, the
candidate palette fed to the diversity selection is the median-cut palette
requested with size `paletteSize * CANDIDATE_SIZE_FACTOR`, where
`CANDIDATE_SIZE_FACTOR = 12`; the `extractDistinctColorPalette` parameter's
declared default is 2, but `analyzeImageColors` overrides it with 12. -/
theorem analyzeDistinctPalette_uses_factor_twelve
    (colorCounts : List (Color × ℚ)) (paletteSize : Nat) :
    analyzeDistinctPalette colorCounts paletteSize =
      distinctSelect (extractColorPalette colorCounts (paletteSize * CANDIDATE_SIZE_FACTOR))
        paletteSize ∧
    CANDIDATE_SIZE_FACTOR = 12 ∧ defaultCandidateSizeFactor = 2 :=
  ⟨rfl, rfl, rfl⟩

/-- C10: whenever at least one operand's `dominantColors` field is absent,
`compareByLuminance`, `compareByHue`, `compareBySaturation` and
`compareByColorTemperature` all return exactly 0; and the average-colour
fallback branch written inside `compareByLuminance` is unreachable — the
function coincides everywhere with its fallback-free form. -/
theorem comparators_zero_on_missing_dominant (pow24 : ℚ → ℚ)
    (a b a' b' : VisualMetadataC)
    (h : a.dominantColors = none ∨ b.dominantColors = none) :
    compareByLuminance pow24 a b = 0 ∧
    compareByHue pow24 a b = 0 ∧
    compareBySaturation pow24 a b = 0 ∧
    compareByColorTemperature a b = 0 ∧
    compareByLuminance pow24 a' b' = compareByLuminanceNoFallback pow24 a' b' := by
  refine ⟨?_, ?_, ?_, ?_, ?_⟩
  · unfold compareByLuminance; rw [if_pos h]
  · unfold compareByHue; rw [if_pos h]
  · unfold compareBySaturation; rw [if_pos h]
  · unfold compareByColorTemperature; rw [if_pos h]
  · cases hA : a'.dominantColors with
    | none =>
      unfold compareByLuminance compareByLuminanceNoFallback
      rw [if_pos (Or.inl hA), hA]
    | some la =>
      cases hB : b'.dominantColors with
      | none =>
        unfold compareByLuminance compareByLuminanceNoFallback
        rw [if_pos (Or.inr hB), hA, hB]
      | some lb =>
        unfold compareByLuminance compareByLuminanceNoFallback
        have hcond : ¬(a'.dominantColors = none ∨ b'.dominantColors = none) := by
          rw [hA, hB]; simp
        rw [if_neg hcond, hA, hB]

/-- Witness for C10: concrete metadata with an absent `dominantColors`. -/
theorem comparators_zero_on_missing_dominant_witness :
    compareByLuminance id ⟨none, none⟩ ⟨some ⟨1, 2, 3⟩, some [⟨1, 2, 3⟩]⟩ = 0 ∧
    compareByHue id ⟨none, none⟩ ⟨some ⟨1, 2, 3⟩, some [⟨1, 2, 3⟩]⟩ = 0 ∧
    compareBySaturation id ⟨none, none⟩ ⟨some ⟨1, 2, 3⟩, some [⟨1, 2, 3⟩]⟩ = 0 ∧
    compareByColorTemperature ⟨none, none⟩ ⟨some ⟨1, 2, 3⟩, some [⟨1, 2, 3⟩]⟩ = 0 ∧
    compareByLuminance id ⟨none, none⟩ ⟨some ⟨1, 2, 3⟩, some [⟨1, 2, 3⟩]⟩ =
      compareByLuminanceNoFallback id ⟨none, none⟩ ⟨some ⟨1, 2, 3⟩, some [⟨1, 2, 3⟩]⟩ :=
  comparators_zero_on_missing_dominant id ⟨none, none⟩ ⟨some ⟨1, 2, 3⟩, some [⟨1, 2, 3⟩]⟩
    ⟨none, none⟩ ⟨some ⟨1, 2, 3⟩, some [⟨1, 2, 3⟩]⟩ (Or.inl rfl)


theorem jsRound_intCast (n : ℤ) : jsRound (n : ℚ) = n := by
  unfold jsRound
  rw [Int.floor_int_add]
  norm_num

theorem mcLoop_singleton (p : Nat) (box : ColorBox) (log : List Nat)
    (hbox : box.data.length ≤ 1) :
    ∀ fuel, mcLoop p fuel [box] log = ([box], log) := by
  intro fuel
  cases fuel with
  | zero => rfl
  | succ m =>
    simp only [mcLoop, List.length_cons, List.length_nil, Nat.zero_add]
    by_cases h1 : 1 < p
    · rw [if_pos h1]
      have hsel : selectBoxIdx [box] = some 0 := rfl
      rw [hsel]
      simp only [List.getD]
      rw [if_pos (by simpa using hbox)]
    · rw [if_neg h1]

/-- Counterexample to C4 as stated: for a requested palette size of 0 and a
one-point input, `medianCutQuantize` returns one colour — more than
`paletteSize`.  (The loop can only grow the box list, which starts at one
box.) -/
theorem medianCutQuantize_exceeds_zero_paletteSize :
    medianCutQuantize [⟨0, 0, 0, 1⟩] 0 = [⟨0, 0, 0⟩] ∧
    ¬((medianCutQuantize [⟨0, 0, 0, 1⟩] 0).length ≤ 0) := by
  have h : medianCutQuantize [⟨0, 0, 0, 1⟩] 0 = [⟨0, 0, 0⟩] := by
    norm_num [medianCutQuantize, medianCutBoxes, mcLoop, computeAverageColor,
      createColorBox, jsRound]
  exact ⟨h, by rw [h]; simp⟩

/-- C4 (amended): for every weighted point list and every requested palette
size of at least 1, `medianCutQuantize` never returns more than `paletteSize`
colours, and no box containing a single point is ever split (every split box
held at least two points). -/
theorem medianCut_length_le_and_no_singleton_split (data : List DataPoint) (p : Nat)
    (hp : 1 ≤ p) :
    (medianCutQuantize data p).length ≤ p ∧
    ∀ n ∈ (medianCutBoxes data p).2, 2 ≤ n := by
  constructor
  · unfold medianCutQuantize
    by_cases h0 : data.length = 0
    · rw [if_pos h0]; simp
    · rw [if_neg h0, List.length_map]
      have h := (mcLoop_spec p p [createColorBox data] []).1
      have : max ([createColorBox data].length) p = p := by simp; omega
      unfold medianCutBoxes
      omega
  · intro n hn
    rcases (mcLoop_spec p p [createColorBox data] []).2 n hn with h | h
    · simp at h
    · exact h

/-- Witness for C4: a concrete one-point input at palette size 2. -/
theorem medianCut_length_le_and_no_singleton_split_witness :
    (1 : Nat) ≤ 2 ∧
    ((medianCutQuantize [⟨0, 0, 0, 1⟩] 2).length ≤ 2 ∧
     ∀ n ∈ (medianCutBoxes [⟨0, 0, 0, 1⟩] 2).2, 2 ≤ n) :=
  ⟨by decide, medianCut_length_le_and_no_singleton_split [⟨0, 0, 0, 1⟩] 2 (by decide)⟩

/-- C5: quantizing a singleton weighted point set whose colour has integer
channels in [0, 255], with positive weight, to any palette size ≥ 1 returns
exactly that one colour. -/
theorem medianCut_singleton_roundtrip (cr cg cb : ℤ) (w : ℚ) (p : Nat)
    (hr0 : 0 ≤ cr) (hr1 : cr ≤ 255) (hg0 : 0 ≤ cg) (hg1 : cg ≤ 255)
    (hb0 : 0 ≤ cb) (hb1 : cb ≤ 255) (hw : 0 < w) (hp : 1 ≤ p) :
    medianCutQuantize [⟨(cr : ℚ), (cg : ℚ), (cb : ℚ), w⟩] p =
      [⟨(cr : ℚ), (cg : ℚ), (cb : ℚ)⟩] := by
  unfold medianCutQuantize medianCutBoxes
  rw [if_neg (by simp)]
  rw [mcLoop_singleton p (createColorBox [⟨(cr : ℚ), (cg : ℚ), (cb : ℚ), w⟩]) []
    (by simp [createColorBox]) p]
  simp only [List.map_cons, List.map_nil]
  have hw' : w ≠ 0 := ne_of_gt hw
  unfold computeAverageColor createColorBox
  simp only [List.map_cons, List.map_nil, List.sum_cons, List.sum_nil, add_zero]
  rw [mul_div_cancel_right₀ _ hw', mul_div_cancel_right₀ _ hw', mul_div_cancel_right₀ _ hw',
    jsRound_intCast, jsRound_intCast, jsRound_intCast]

/-- Witness for C5: the colour (10, 20, 30) with weight 2 at palette size 3. -/
theorem medianCut_singleton_roundtrip_witness :
    (0 ≤ (10 : ℤ) ∧ (10 : ℤ) ≤ 255 ∧ 0 ≤ (20 : ℤ) ∧ (20 : ℤ) ≤ 255 ∧
     0 ≤ (30 : ℤ) ∧ (30 : ℤ) ≤ 255 ∧ 0 < (2 : ℚ) ∧ 1 ≤ 3) ∧
    medianCutQuantize [⟨((10 : ℤ) : ℚ), ((20 : ℤ) : ℚ), ((30 : ℤ) : ℚ), 2⟩] 3 =
      [⟨((10 : ℤ) : ℚ), ((20 : ℤ) : ℚ), ((30 : ℤ) : ℚ)⟩] :=
  ⟨⟨by decide, by decide, by decide, by decide, by decide, by decide, by norm_num, by decide⟩,
   medianCut_singleton_roundtrip 10 20 30 2 3 (by decide) (by decide) (by decide) (by decide)
     (by decide) (by decide) (by norm_num) (by decide)⟩


/-- A concrete outcome of the random draws, used by concrete evaluations:
every `Math.random()` product is 0 and every reseed picks index 0. -/
def zeroOracle : Oracle := ⟨fun _ => 0, fun _ _ => 0⟩

/-- Counterexample to C3 as stated: for `k = 0` and one distinct colour, the
`data.length <= k` early return does not fire, the k-means++ seeding pushes a
first centroid unconditionally, and `extractDominantColors` returns one
colour — more than `k`. -/
theorem extractDominantColors_k_zero_exceeds :
    extractDominantColors zeroOracle [⟨0, 0, 0, 1⟩] 0 = [⟨0, 0, 0⟩] ∧
    ¬((extractDominantColors zeroOracle [⟨0, 0, 0, 1⟩] 0).length ≤ 0) := by
  have h : extractDominantColors zeroOracle [⟨0, 0, 0, 1⟩] 0 = [⟨0, 0, 0⟩] := by
    norm_num [extractDominantColors, sortClustersByWeight, dominantClusters, kMeansClustering,
      kmLoop, assignSums, addPoint, bestIndex, firstMinIdx, firstMinAux, updateLoop,
      initializeCentroidsKMeansPP, kmppLoop, pickByWeight, lastD, toCentroid,
      euclideanDistanceSquared, clampRoundColor, clamp255, jsRound, List.mergeSort,
      nearestDistSq, minQ, pickByScore]
  exact ⟨h, by rw [h]; simp⟩

/-- C3 (amended): for every weighted point list and every requested count
`k ≥ 1`, `extractDominantColors` returns at most `k` colours (for every
outcome of the random draws); and whenever the number of distinct colours is
at most `k`, the output is exactly that distinct colour list (no clustering
performed). -/
theorem extractDominantColors_length_le (o : Oracle) (data : List DataPoint) (k : Nat)
    (hk : 1 ≤ k) :
    (extractDominantColors o data k).length ≤ k ∧
    (data.length ≤ k → extractDominantColors o data k = data.map toCentroid) := by
  constructor
  · unfold extractDominantColors
    by_cases h0 : data.length = 0
    · rw [if_pos h0]; simp
    · rw [if_neg h0]
      by_cases hle : data.length ≤ k
      · rw [if_pos hle]; simpa using hle
      · rw [if_neg hle, List.length_map]
        unfold sortClustersByWeight
        rw [List.length_mergeSort, length_dominantClusters]
        omega
  · intro hle
    unfold extractDominantColors
    by_cases h0 : data.length = 0
    · rw [if_pos h0]
      have hnil : data = [] := List.length_eq_zero.mp h0
      rw [hnil]; rfl
    · rw [if_neg h0, if_pos hle]

/-- Witness for C3: two distinct colours at `k = 1` and at `k = 3`. -/
theorem extractDominantColors_length_le_witness :
    (1 : Nat) ≤ 1 ∧
    ((extractDominantColors zeroOracle [⟨0, 0, 0, 1⟩, ⟨100, 0, 0, 2⟩] 1).length ≤ 1 ∧
     (([⟨0, 0, 0, 1⟩, ⟨100, 0, 0, 2⟩] : List DataPoint).length ≤ 1 →
      extractDominantColors zeroOracle [⟨0, 0, 0, 1⟩, ⟨100, 0, 0, 2⟩] 1 =
        ([⟨0, 0, 0, 1⟩, ⟨100, 0, 0, 2⟩] : List DataPoint).map toCentroid)) ∧
    ((extractDominantColors zeroOracle [⟨0, 0, 0, 1⟩, ⟨100, 0, 0, 2⟩] 3).length ≤ 3 ∧
     (([⟨0, 0, 0, 1⟩, ⟨100, 0, 0, 2⟩] : List DataPoint).length ≤ 3 →
      extractDominantColors zeroOracle [⟨0, 0, 0, 1⟩, ⟨100, 0, 0, 2⟩] 3 =
        ([⟨0, 0, 0, 1⟩, ⟨100, 0, 0, 2⟩] : List DataPoint).map toCentroid)) :=
  ⟨by decide,
   extractDominantColors_length_le zeroOracle [⟨0, 0, 0, 1⟩, ⟨100, 0, 0, 2⟩] 1 (by decide),
   extractDominantColors_length_le zeroOracle [⟨0, 0, 0, 1⟩, ⟨100, 0, 0, 2⟩] 3 (by decide)⟩

/-- C2: when there are more distinct colours than `k`, for every outcome of
the random choices made during seeding and reseeding, `extractDominantColors`
returns the final k-means centroids with each channel rounded and clamped to
[0, 255] (`clampRoundColor`), arranged so that the associated cluster weights
are in descending order (the cluster representing the most pixels first). -/
theorem extractDominantColors_sorted_desc (o : Oracle) (data : List DataPoint) (k : Nat)
    (h : k < data.length) :
    ∃ l : List (Color × ℚ),
      l.Perm (dominantClusters o data k) ∧
      List.Pairwise (fun a b : Color × ℚ => b.2 ≤ a.2) l ∧
      extractDominantColors o data k = l.map (fun c => clampRoundColor c.1) := by
  refine ⟨sortClustersByWeight (dominantClusters o data k),
    List.mergeSort_perm _ _, ?_, ?_⟩
  · have hs := @List.sorted_mergeSort (Color × ℚ) (fun a b => decide (b.2 ≤ a.2))
      (fun a b c hab hbc => by
        simp only [decide_eq_true_eq] at *
        exact le_trans hbc hab)
      (fun a b => by
        simp only [Bool.or_eq_true, decide_eq_true_eq]
        exact le_total b.2 a.2)
      (dominantClusters o data k)
    exact hs.imp (fun hd => of_decide_eq_true hd)
  · unfold extractDominantColors
    rw [if_neg (by omega), if_neg (by omega)]

/-- Witness for C2: two distinct colours at `k = 1` under the zero oracle. -/
theorem extractDominantColors_sorted_desc_witness :
    (1 : Nat) < 2 ∧
    ∃ l : List (Color × ℚ),
      l.Perm (dominantClusters zeroOracle [⟨0, 0, 0, 1⟩, ⟨100, 0, 0, 2⟩] 1) ∧
      List.Pairwise (fun a b : Color × ℚ => b.2 ≤ a.2) l ∧
      extractDominantColors zeroOracle [⟨0, 0, 0, 1⟩, ⟨100, 0, 0, 2⟩] 1 =
        l.map (fun c => clampRoundColor c.1) :=
  ⟨by decide,
   extractDominantColors_sorted_desc zeroOracle [⟨0, 0, 0, 1⟩, ⟨100, 0, 0, 2⟩] 1 (by decide)⟩


theorem flatMap_const_nil {α β : Type} (l : List α) :
    l.flatMap (fun _ => ([] : List β)) = [] := by
  induction l with
  | nil => rfl
  | cons x xs ih => simp [List.flatMap] at ih ⊢

/-- Counterexample to C8 as stated: on zero pixels `analyzeImageColors` does
not produce a zero-valued average colour — every channel of `averageColor` is
the JavaScript `NaN` produced by `0 / 0` (modelled as `none`), not 0. -/
theorem analyze_empty_averageColor_nan :
    (analyzeImageColors zeroOracle id 5 5 [] 0 0).averageColor = (none, none, none) ∧
    (analyzeImageColors zeroOracle id 5 5 [] 0 0).averageColor ≠
      (some 0, some 0, some 0) := by
  have h : (analyzeImageColors zeroOracle id 5 5 [] 0 0).averageColor = (none, none, none) := by
    norm_num [analyzeImageColors, countColors, channelTotals, jsDivOpt]
  exact ⟨h, by rw [h]; simp⟩

/-- C8 (amended): on empty input the core functions return empty or
zero-valued results rather than failing — `extractDominantColors` and
`medianCutQuantize` return empty lists, `calculateColorVariance` returns zero
variance for each channel, and `analyzeImageColors` does not fail on zero
pixels: it returns empty palettes, a zero histogram and zero variance, with
the brightness range collapsed to its initial (1, 0) — but its `averageColor`
channels and `averageBrightness` are the JavaScript `NaN` (`0 / 0`, modelled
as `none`), not zero values. -/
theorem empty_input_results (o : Oracle) (pow24 : ℚ → ℚ) (K P : Nat)
    (pixels : List Nat) (w h : Nat) :
    extractDominantColors o [] K = [] ∧
    medianCutQuantize [] P = [] ∧
    calculateColorVariance pixels w 0 = (0, 0, 0) ∧
    calculateColorVariance pixels 0 h = (0, 0, 0) ∧
    analyzeImageColors o pow24 K P [] 0 0 =
      ⟨(none, none, none), [], [], [], initializeHistogram, none, 1, 0, (0, 0, 0)⟩ := by
  refine ⟨rfl, rfl, ?_, ?_, ?_⟩
  · norm_num [calculateColorVariance, blockVariancesList, BLOCK_SIZE, sortAsc, List.mergeSort]
  · norm_num [calculateColorVariance, blockVariancesList, BLOCK_SIZE, sortAsc, List.mergeSort,
      flatMap_const_nil]
  · norm_num [analyzeImageColors, countColors, channelTotals, brightnessPass, jsDivOpt,
      extractDominantColors, extractColorPalette, extractDistinctColorPalette, distinctSelect,
      candidateCount, medianCutQuantize, analyzeHistogram, processPixelsHist,
      calculateColorVariance, blockVariancesList, sortAsc, List.mergeSort, BLOCK_SIZE]
    rfl

end ImageWrench
